import Mathlib

/-
Verification development for the A/B testing engines of the repository
(src/discrete_tests.py and src/continuous_tests.py).  The two entry points
perform_discrete_ab_test and perform_continuous_ab_test are embedded
shallowly: the validation logic, the contingency table, the expected
frequencies, the assumption checks and the branch structure are computed
exactly (over Rat), while the numeric outputs of the library routines
(test statistics, p values, square roots, standard deviations) enter
through oracle parameters, since only their presence, sign behaviour and
comparison against 0.05 matter for the properties below.  Floating point
values of the source are modelled as rationals; the plotly figure fields
are presentation only and are not modelled.
-/

namespace ABTest

/-- Raw cell value of the metric column before numeric coercion: a numeric
value, a missing value (NaN), or a value that pd.to_numeric cannot coerce. -/
inductive Val where
  | num (q : ℚ)
  | nan
  | nonnum (s : String)
deriving DecidableEq, Repr

/-- pd.to_numeric with errors=coerce on one cell: numbers stay, everything
else becomes missing. -/
def toNumeric : Val → Val
  | .num q => .num q
  | _ => .nan

/-- The input table restricted to the two columns the engines read: each row
is a variant label paired with a raw metric cell. -/
abbrev Table := List (String × Val)

/-- Line 41 of discrete_tests.py and line 42 of continuous_tests.py: the
engines overwrite the metric column of the callers table with its numeric
coercion (an in place mutation of the dataframe). -/
def coerceMetric (t : Table) : Table := t.map (fun r => (r.1, toNumeric r.2))

/-- df.dropna(subset=[metric_col]) on the coerced table: rows whose metric
did not coerce to a number are dropped. -/
def cleanedOf (dfm : Table) : List (String × ℚ) :=
  dfm.filterMap (fun r => match r.2 with | .num q => some (r.1, q) | _ => none)

/-- Distinct values of a column in order of first appearance
(pandas Series.unique; Series.nunique is the length of this list). -/
def uniques {α : Type} [DecidableEq α] (l : List α) : List α :=
  l.foldl (fun acc x => if x ∈ acc then acc else acc ++ [x]) []

/-- Insert one element into a list sorted by the boolean comparison le. -/
def insertLe {α : Type} (le : α → α → Bool) (a : α) : List α → List α
  | [] => [a]
  | b :: l => if le a b then a :: b :: l else b :: insertLe le a l

/-- Insertion sort by the boolean comparison le (pd.crosstab sorts the
row and column labels of the table it builds). -/
def sortLe {α : Type} (le : α → α → Bool) (l : List α) : List α :=
  l.foldr (insertLe le) []

/-- Lexicographic comparison of character lists by code point. -/
def charListLe : List Char → List Char → Bool
  | [], _ => true
  | _ :: _, [] => false
  | c :: cs, d :: ds =>
    if c.toNat < d.toNat then true
    else if d.toNat < c.toNat then false
    else charListLe cs ds

/-- Lexicographic string comparison by code point, the order in which
pandas sorts string labels. -/
def strLe (a b : String) : Bool := charListLe a.data b.data

/-- A pandas crosstab: sorted distinct row and column labels together with
the observed count of every (variant, outcome) cell. -/
structure Crosstab where
  rowLabels : List String
  colLabels : List ℚ
  counts : List (List ℕ)
deriving DecidableEq, Repr

/-- pd.crosstab(df_cleaned[variant_col], df_cleaned[metric_col]). -/
def crosstab (cleaned : List (String × ℚ)) : Crosstab :=
  { rowLabels := sortLe strLe (uniques (cleaned.map Prod.fst))
    colLabels := sortLe (fun a b => decide (a ≤ b)) (uniques (cleaned.map Prod.snd))
    counts :=
      (sortLe strLe (uniques (cleaned.map Prod.fst))).map (fun v =>
        (sortLe (fun a b => decide (a ≤ b)) (uniques (cleaned.map Prod.snd))).map (fun o =>
          (cleaned.filter (fun r => decide (r.1 = v ∧ r.2 = o))).length)) }

/-- Expected cell counts of scipy.stats.chi2_contingency: row total times
column total over the grand total. -/
def expectedFreq (ct : Crosstab) : List (List ℚ) :=
  (ct.counts.map (fun r => (r.sum : ℚ))).map (fun rt =>
    ((List.range ct.colLabels.length).map
      (fun j => ((ct.counts.map (fun row => row.getD j 0)).sum : ℚ))).map
      (fun c => rt * c / ((ct.counts.map (fun r => r.sum)).sum : ℚ)))

/-- Lines 71 to 73 of discrete_tests.py: percentage of expected frequency
cells that are below 5. -/
def pctSmallExpected (expected : List (List ℚ)) : ℚ :=
  ((expected.flatten.filter (fun e => decide (e < 5))).length : ℚ)
    / (expected.flatten.length : ℚ) * 100

/-- Line 79 of discrete_tests.py: the success column is 1 if present,
else 0 if present, else undetermined. -/
def successIndex (ct : Crosstab) : Option ℚ :=
  if (1 : ℚ) ∈ ct.colLabels then some 1
  else if (0 : ℚ) ∈ ct.colLabels then some 0 else none

/-- The normal quantile scipy.stats.norm.isf(0.025) used by statsmodels
proportion_confint for a 95 percent interval. -/
def z975 : ℚ := 1.959963984540054

/-- statsmodels sm.stats.proportion_confint(count, nobs, alpha=0.05) with
the normal approximation: p plus or minus z times sqrt(p(1-p)/n), where the
square root routine np.sqrt enters as the oracle sq. -/
def proportion_confint (sq : ℚ → ℚ) (count n : ℕ) : ℚ × ℚ :=
  ((count : ℚ) / (n : ℚ) - z975 * sq ((count : ℚ) / (n : ℚ) * (1 - (count : ℚ) / (n : ℚ)) / (n : ℚ)),
   (count : ℚ) / (n : ℚ) + z975 * sq ((count : ℚ) / (n : ℚ) * (1 - (count : ℚ) / (n : ℚ)) / (n : ℚ)))

/-- Index of the success column among the table columns. -/
def colIdx (ct : Crosstab) (s : ℚ) : ℕ := ct.colLabels.findIdx (fun o => decide (o = s))

/-- One row of the observed rates table (lines 85 to 106): variant label,
conversion rate in percent, and the scaled confidence interval bounds. -/
def ratesRow (sq : ℚ → ℚ) (v : String) (count n : ℕ) : String × ℚ × ℚ × ℚ :=
  (v, (count : ℚ) / (n : ℚ) * 100,
   (proportion_confint sq count n).1 * 100, (proportion_confint sq count n).2 * 100)

/-- The observed_rates_df of the discrete engine, in crosstab row order:
success count is the success column cell, trials are the row total. -/
def ratesTable (sq : ℚ → ℚ) (ct : Crosstab) (s : ℚ) : List (String × ℚ × ℚ × ℚ) :=
  (ct.rowLabels.zip ct.counts).map (fun p => ratesRow sq p.1 (p.2.getD (colIdx ct s) 0) p.2.sum)

/-- Line 91: conversion rates in percent, keyed by variant label. -/
def rawRates (ct : Crosstab) (s : ℚ) : List (String × ℚ) :=
  (ct.rowLabels.zip ct.counts).map (fun p =>
    (p.1, ((p.2.getD (colIdx ct s) 0 : ℚ) / (p.2.sum : ℚ)) * 100))

/-- Status field of a result record. -/
inductive Status where
  | success
  | error
deriving DecidableEq, Repr

/-- Conclusion label derived from the p value (the two source strings). -/
inductive Conclusion where
  | significant
  | notSignificant
deriving DecidableEq, Repr

/-- The method name strings stored in test_method, as an enumeration. -/
inductive TestMethod where
  | pearsonChi2
  | fisherExact
  | mannWhitneyU
  | studentT
  | welchT
deriving DecidableEq, Repr

/-- Lines 131 to 136 and 145 to 150: conclusion from the p value at 0.05. -/
def conclusionOf (p : ℚ) : Conclusion :=
  if p < 5 / 100 then .significant else .notSignificant

/-- The interpretation strings attached next to the conclusion. -/
def interpretationOf (p : ℚ) : String :=
  if p < 5 / 100 then "significant effect of the variant on the metric"
  else "insufficient evidence for a difference between the variants"

/-- Result record of the discrete engine (the results dict of lines 22 to
38 of discrete_tests.py; the plot_figure key is presentation only and the
source key for the Fisher statistic is named odds_ratio). -/
structure DiscreteResult where
  status : Status
  error_message : Option String
  contingency_table : Option Crosstab
  expected_frequencies : Option (List (List ℚ))
  percentage_small_expected : Option ℚ
  observed_rates_df : Option (List (String × ℚ × ℚ × ℚ))
  test_method : Option TestMethod
  p_value : Option ℚ
  chi2_statistic : Option ℚ
  dof : Option ℕ
  odds : Option ℚ
  conclusion : Option Conclusion
  interpretation : Option String
  raw_conversion_rates : Option (List (String × ℚ))
deriving DecidableEq, Repr

/-- The initial results dict of the discrete engine. -/
def initD : DiscreteResult :=
  { status := .success, error_message := none, contingency_table := none
    expected_frequencies := none, percentage_small_expected := none
    observed_rates_df := none, test_method := none, p_value := none
    chi2_statistic := none, dof := none, odds := none, conclusion := none
    interpretation := none, raw_conversion_rates := none }

/-- Oracle for the library routines called by the discrete engine: the
chi squared statistic and p value of chi2_contingency, the odds ratio and
p value of fisher_exact (as functions of the contingency table), and the
np.sqrt routine used by proportion_confint. -/
structure DStats where
  chi2Stat : Crosstab → ℚ
  chi2P : Crosstab → ℚ
  fisherOdds : Crosstab → ℚ
  fisherP : Crosstab → ℚ
  sqrt : ℚ → ℚ

/-- The contingency table built by the discrete engine from the coerced
table dfm. -/
def dct (dfm : Table) : Crosstab := crosstab (cleanedOf dfm)

/-- The expected frequency table of the discrete engine. -/
def dexp (dfm : Table) : List (List ℚ) := expectedFreq (dct dfm)

/-- The percentage of small expected cells of the discrete engine. -/
def dpct (dfm : Table) : ℚ := pctSmallExpected (dexp dfm)

/-- Degrees of freedom reported by chi2_contingency. -/
def ddof (dfm : Table) : ℕ :=
  ((dct dfm).rowLabels.length - 1) * ((dct dfm).colLabels.length - 1)

/-- The result after lines 63 to 74: contingency table, expected
frequencies and small cell percentage recorded. -/
def dWithTables (dfm : Table) : DiscreteResult :=
  { initD with
    contingency_table := some (dct dfm)
    expected_frequencies := some (dexp dfm)
    percentage_small_expected := some (dpct dfm) }

/-- The result after lines 76 to 123: rates and intervals recorded when the
success column is determined; otherwise only error_message is set (the
status is left untouched by the source at line 123). -/
def dWithRates (os : DStats) (dfm : Table) : DiscreteResult :=
  match successIndex (dct dfm) with
  | some s =>
    { dWithTables dfm with
      raw_conversion_rates := some (rawRates (dct dfm) s)
      observed_rates_df := some (ratesTable os.sqrt (dct dfm) s) }
  | none =>
    { dWithTables dfm with
      error_message := some "could not determine success column" }

/-- perform_discrete_ab_test applied to the already coerced table (the
mutation of line 41 is done by the wrapper below). -/
def discreteResultOf (os : DStats) (dfm : Table) : DiscreteResult :=
  if 2 < (uniques ((cleanedOf dfm).map Prod.snd)).length then
    { initD with
      status := .error
      error_message := some "metric column contains more than two unique values" }
  else if (dct dfm).rowLabels.isEmpty || (dct dfm).colLabels.isEmpty then
    { initD with
      status := .error
      error_message := some "could not create a contingency table" }
  else if dpct dfm ≤ 20 ∧ ∀ e ∈ (dexp dfm).flatten, 1 ≤ e then
    { dWithRates os dfm with
      test_method := some TestMethod.pearsonChi2
      chi2_statistic := some (os.chi2Stat (dct dfm))
      dof := some (ddof dfm)
      p_value := some (os.chi2P (dct dfm))
      conclusion := some (conclusionOf (os.chi2P (dct dfm)))
      interpretation := some (interpretationOf (os.chi2P (dct dfm))) }
  else if (dct dfm).rowLabels.length = 2 ∧ (dct dfm).colLabels.length = 2 then
    { dWithRates os dfm with
      test_method := some TestMethod.fisherExact
      p_value := some (os.fisherP (dct dfm))
      odds := some (os.fisherOdds (dct dfm))
      conclusion := some (conclusionOf (os.fisherP (dct dfm)))
      interpretation := some (interpretationOf (os.fisherP (dct dfm))) }
  else
    { dWithRates os dfm with
      test_method := some TestMethod.fisherExact
      status := .error
      error_message := some "fisher exact needs a 2x2 contingency table" }

/-- perform_discrete_ab_test of src/discrete_tests.py: the returned pair is
the results dict together with the callers table after the in place
coercion of the metric column. -/
def perform_discrete_ab_test (os : DStats) (t : Table) : DiscreteResult × Table :=
  (discreteResultOf os (coerceMetric t), coerceMetric t)

/-- Result record of the continuous engine (the results dict of lines 23 to
40 of continuous_tests.py; group_stats holds label, N, mean and standard
deviation per group, plot_figure is presentation only). -/
structure ContinuousResult where
  status : Status
  error_message : Option String
  group_stats : Option (List (String × ℕ × ℚ × ℚ))
  is_large_sample : Bool
  shapiro_a_p : Option ℚ
  shapiro_b_p : Option ℚ
  is_normal_a : Option Bool
  is_normal_b : Option Bool
  levene_p : Option ℚ
  variances_similar : Option Bool
  test_method : Option TestMethod
  statistic : Option ℚ
  p_value : Option ℚ
  conclusion : Option Conclusion
  interpretation : Option String
deriving DecidableEq, Repr

/-- The initial results dict of the continuous engine. -/
def initC : ContinuousResult :=
  { status := .success, error_message := none, group_stats := none,
    is_large_sample := false, shapiro_a_p := none, shapiro_b_p := none,
    is_normal_a := none, is_normal_b := none, levene_p := none,
    variances_similar := none, test_method := none, statistic := none,
    p_value := none, conclusion := none, interpretation := none }

/-- Oracle for the library routines called by the continuous engine.  The
scipy tests may raise (for example shapiro on fewer than three values), so
they return in Except; mean and std are the pandas descriptive routines. -/
structure CStats where
  shapiro : List ℚ → Except String (ℚ × ℚ)
  levene : List ℚ → List ℚ → Except String (ℚ × ℚ)
  mannwhitneyu : List ℚ → List ℚ → Except String (ℚ × ℚ)
  ttest_ind : List ℚ → List ℚ → Bool → Except String (ℚ × ℚ)
  mean : List ℚ → ℚ
  std : List ℚ → ℚ

/-- The unique variant values of the cleaned table, in appearance order
(line 53 of continuous_tests.py). -/
def cvariants (dfm : Table) : List String :=
  uniques ((cleanedOf dfm).map Prod.fst)

/-- The metric values of one variant group (lines 63 and 64). -/
def groupOf (dfm : Table) (v : String) : List ℚ :=
  ((cleanedOf dfm).filter (fun r => decide (r.1 = v))).map Prod.snd

/-- variants[0] of line 63 (the engine reaches this only after checking
that exactly two variants exist, so the default is never used). -/
def varA (dfm : Table) : String := (cvariants dfm).getD 0 ""

/-- variants[1] of line 64. -/
def varB (dfm : Table) : String := (cvariants dfm).getD 1 ""

/-- group_a of line 63. -/
def groupA (dfm : Table) : List ℚ := groupOf dfm (varA dfm)

/-- group_b of line 64. -/
def groupB (dfm : Table) : List ℚ := groupOf dfm (varB dfm)

/-- Lines 121 to 144 of continuous_tests.py: record method, statistic and
p value, then derive the conclusion.  The none branch mirrors the
defensive p_val check of line 126; p_val is assigned in every test branch,
so the callers below always pass some value. -/
def finishContinuous (base : ContinuousResult) (stat pv : Option ℚ)
    (m : TestMethod) : ContinuousResult :=
  match pv with
  | some p =>
    { base with
      test_method := some m
      statistic := stat
      p_value := some p
      conclusion := some (conclusionOf p)
      interpretation := some (interpretationOf p) }
  | none =>
    { base with
      test_method := some m
      statistic := stat
      p_value := none
      status := .error
      error_message := some "could not perform statistical test" }

/-- perform_continuous_ab_test applied to the already coerced table: the
validations of lines 45 to 61, the group split, the diagnostics of lines
85 to 99, and the test selection of lines 108 to 119.  A raised exception
of a scipy routine propagates as Except.error, since the source has no
exception handler. -/
def continuousResultOf (cs : CStats) (dfm : Table) : Except String ContinuousResult :=
  if (uniques ((cleanedOf dfm).map Prod.snd)).length < 2 then
    .ok { initC with
          status := .error
          error_message := some "metric column does not have enough unique values" }
  else if (cvariants dfm).length ≠ 2 then
    .ok { initC with
          status := .error
          error_message := some "expected exactly two variants" }
  else
    match cs.shapiro (groupA dfm) with
    | .error e => .error e
    | .ok sa =>
      match cs.shapiro (groupB dfm) with
      | .error e => .error e
      | .ok sb =>
        match cs.levene (groupA dfm) (groupB dfm) with
        | .error e => .error e
        | .ok lv =>
          let base :=
            { initC with
              group_stats := some
                [(varA dfm, (groupA dfm).length, cs.mean (groupA dfm), cs.std (groupA dfm)),
                 (varB dfm, (groupB dfm).length, cs.mean (groupB dfm), cs.std (groupB dfm))]
              is_large_sample :=
                decide (30 ≤ (groupA dfm).length) && decide (30 ≤ (groupB dfm).length)
              shapiro_a_p := some sa.2
              shapiro_b_p := some sb.2
              is_normal_a := some (decide (5 / 100 < sa.2))
              is_normal_b := some (decide (5 / 100 < sb.2))
              levene_p := some lv.2
              variances_similar := some (decide (5 / 100 < lv.2)) }
          if !(decide (30 ≤ (groupA dfm).length) && decide (30 ≤ (groupB dfm).length))
              && (!(decide (5 / 100 < sa.2)) || !(decide (5 / 100 < sb.2))) then
            match cs.mannwhitneyu (groupA dfm) (groupB dfm) with
            | .error e => .error e
            | .ok u => .ok (finishContinuous base (some u.1) (some u.2) .mannWhitneyU)
          else if decide (5 / 100 < lv.2) then
            match cs.ttest_ind (groupA dfm) (groupB dfm) true with
            | .error e => .error e
            | .ok u => .ok (finishContinuous base (some u.1) (some u.2) .studentT)
          else
            match cs.ttest_ind (groupA dfm) (groupB dfm) false with
            | .error e => .error e
            | .ok u => .ok (finishContinuous base (some u.1) (some u.2) .welchT)

/-- perform_continuous_ab_test of src/continuous_tests.py: on a normal
return the caller sees the results dict and the in place coerced table; a
raised exception propagates instead of producing a result. -/
def perform_continuous_ab_test (cs : CStats) (t : Table) :
    Except String (ContinuousResult × Table) :=
  (continuousResultOf cs (coerceMetric t)).map (fun r => (r, coerceMetric t))

/-- The results dict of a continuous call that returned normally. -/
def contOk (cs : CStats) (t : Table) : Option ContinuousResult :=
  match perform_continuous_ab_test cs t with
  | .ok p => some p.1
  | .error _ => none

/-- The test_method chosen by a continuous call that returned normally. -/
def contMethod (cs : CStats) (t : Table) : Option TestMethod :=
  match perform_continuous_ab_test cs t with
  | .ok p => p.1.test_method
  | .error _ => none

/-- Rows of one variant with a binary metric: n0 failures and n1 successes. -/
def binRows (v : String) (n0 n1 : ℕ) : Table :=
  List.replicate n0 (v, Val.num 0) ++ List.replicate n1 (v, Val.num 1)

/-- Rows of one variant whose metric takes the values 2 and 3. -/
def duoRows (v : String) (n2 n3 : ℕ) : Table :=
  List.replicate n2 (v, Val.num 2) ++ List.replicate n3 (v, Val.num 3)

/-- Three variants, five failures and five successes each: every expected
cell is 5, so the chi squared branch is taken although the variant column
has three distinct values. -/
def tThreeVariants : Table := binRows "a" 5 5 ++ binRows "b" 5 5 ++ binRows "c" 5 5

/-- Two variants, five failures and five successes each: the chi squared
branch with a 2x2 table. -/
def tPearson : Table := binRows "a" 5 5 ++ binRows "b" 5 5

/-- Three variants with one failure and one success each: all expected
cells are 1, the Fisher branch is taken and the table is 3x2. -/
def tFisherBad : Table := binRows "a" 1 1 ++ binRows "b" 1 1 ++ binRows "c" 1 1

/-- Two variants with one failure and one success each: the Fisher branch
on a 2x2 table. -/
def tFisherOk : Table := binRows "a" 1 1 ++ binRows "b" 1 1

/-- Two variants whose binary metric takes the values 2 and 3, so neither
1 nor 0 appears among the outcome columns. -/
def tNoSuccessCol : Table := duoRows "a" 5 5 ++ duoRows "b" 5 5

/-- A table whose metric column holds a value that does not coerce. -/
def tMixed : Table := [("a", Val.nonnum "x"), ("a", Val.num 1), ("b", Val.num 0)]

/-- Two variants of two numeric rows each: passes the continuous
validations, with groups too small for scipy shapiro. -/
def tTiny : Table :=
  [("a", Val.num 1), ("a", Val.num 2), ("b", Val.num 3), ("b", Val.num 4)]

/-- Two variants of three numeric rows each. -/
def tSmall : Table :=
  [("a", Val.num 1), ("a", Val.num 2), ("a", Val.num 3),
   ("b", Val.num 4), ("b", Val.num 5), ("b", Val.num 6)]

/-- A concrete discrete oracle. -/
def os0 : DStats :=
  { chi2Stat := fun _ => 0, chi2P := fun _ => 1 / 2, fisherOdds := fun _ => 1,
    fisherP := fun _ => 1 / 2, sqrt := fun _ => 0 }

/-- A concrete continuous oracle on which every routine returns normally;
both shapiro p values are 1/100, so small groups are treated as not
normally distributed. -/
def cs0 : CStats :=
  { shapiro := fun _ => .ok (1, 1 / 100), levene := fun _ _ => .ok (1, 1 / 2),
    mannwhitneyu := fun _ _ => .ok (7, 3 / 100),
    ttest_ind := fun _ _ _ => .ok (2, 4 / 100),
    mean := fun _ => 0, std := fun _ => 0 }

/-- A continuous oracle on which shapiro raises, as scipy does for groups
of fewer than three values. -/
def csRaise : CStats :=
  { cs0 with shapiro := fun _ => .error "ValueError: data must be at least length 3" }

/-! Helper lemmas. -/

lemma toNumeric_idem (v : Val) : toNumeric (toNumeric v) = toNumeric v := by
  cases v <;> rfl

lemma coerceMetric_idem (t : Table) : coerceMetric (coerceMetric t) = coerceMetric t := by
  simp only [coerceMetric, List.map_map]
  refine List.map_congr_left (fun r _ => ?_)
  simp [Function.comp, toNumeric_idem]

lemma uniques_foldl_ne_nil {α : Type} [DecidableEq α] :
    ∀ (l acc : List α), acc ≠ [] →
      l.foldl (fun acc x => if x ∈ acc then acc else acc ++ [x]) acc ≠ [] := by
  intro l
  induction l with
  | nil => intro acc h; simp only [List.foldl_nil]; exact h
  | cons x xs ih =>
    intro acc h
    simp only [List.foldl_cons]
    apply ih
    by_cases hx : x ∈ acc <;> simp [hx, h]

lemma uniques_ne_nil {α : Type} [DecidableEq α] (l : List α) (h : l ≠ []) :
    uniques l ≠ [] := by
  cases l with
  | nil => exact absurd rfl h
  | cons x xs =>
    unfold uniques
    simp only [List.foldl_cons]
    apply uniques_foldl_ne_nil
    simp

lemma insertLe_ne_nil {α : Type} (le : α → α → Bool) (a : α) (l : List α) :
    insertLe le a l ≠ [] := by
  cases l with
  | nil => simp [insertLe]
  | cons b m => unfold insertLe; split <;> simp

lemma sortLe_ne_nil {α : Type} (le : α → α → Bool) (l : List α) (h : l ≠ []) :
    sortLe le l ≠ [] := by
  cases l with
  | nil => exact absurd rfl h
  | cons x xs =>
    unfold sortLe
    simp only [List.foldr_cons]
    exact insertLe_ne_nil le x _

lemma isEmpty_false_of_ne_nil {α : Type} {l : List α} (h : l ≠ []) :
    l.isEmpty = false := by
  cases l with
  | nil => exact absurd rfl h
  | cons x xs => rfl

lemma dct_not_empty (dfm : Table) (h : cleanedOf dfm ≠ []) :
    ((dct dfm).rowLabels.isEmpty || (dct dfm).colLabels.isEmpty) = false := by
  have hr : (dct dfm).rowLabels ≠ [] := by
    apply sortLe_ne_nil
    apply uniques_ne_nil
    simpa using h
  have hc : (dct dfm).colLabels ≠ [] := by
    apply sortLe_ne_nil
    apply uniques_ne_nil
    simpa using h
  simp [isEmpty_false_of_ne_nil hr, isEmpty_false_of_ne_nil hc]

lemma getD_le_sum : ∀ (l : List ℕ) (j : ℕ), l.getD j 0 ≤ l.sum := by
  intro l
  induction l with
  | nil => intro j; simp [List.getD]
  | cons x xs ih =>
    intro j
    cases j with
    | zero =>
      simp only [List.getD_cons_zero, List.sum_cons]
      exact Nat.le_add_right x xs.sum
    | succ j =>
      simp only [List.getD_cons_succ, List.sum_cons]
      exact le_trans (ih j) (Nat.le_add_left _ _)

lemma dWithRates_status (os : DStats) (dfm : Table) :
    (dWithRates os dfm).status = .success := by
  unfold dWithRates; cases successIndex (dct dfm) <;> rfl

lemma dWithRates_test_method (os : DStats) (dfm : Table) :
    (dWithRates os dfm).test_method = none := by
  unfold dWithRates; cases successIndex (dct dfm) <;> rfl

lemma dWithRates_p_value (os : DStats) (dfm : Table) :
    (dWithRates os dfm).p_value = none := by
  unfold dWithRates; cases successIndex (dct dfm) <;> rfl

lemma dWithRates_chi2_statistic (os : DStats) (dfm : Table) :
    (dWithRates os dfm).chi2_statistic = none := by
  unfold dWithRates; cases successIndex (dct dfm) <;> rfl

lemma dWithRates_dof (os : DStats) (dfm : Table) :
    (dWithRates os dfm).dof = none := by
  unfold dWithRates; cases successIndex (dct dfm) <;> rfl

lemma dWithRates_odds (os : DStats) (dfm : Table) :
    (dWithRates os dfm).odds = none := by
  unfold dWithRates; cases successIndex (dct dfm) <;> rfl

lemma dWithRates_conclusion (os : DStats) (dfm : Table) :
    (dWithRates os dfm).conclusion = none := by
  unfold dWithRates; cases successIndex (dct dfm) <;> rfl

lemma dWithRates_interpretation (os : DStats) (dfm : Table) :
    (dWithRates os dfm).interpretation = none := by
  unfold dWithRates; cases successIndex (dct dfm) <;> rfl

lemma dWithRates_contingency (os : DStats) (dfm : Table) :
    (dWithRates os dfm).contingency_table = some (dct dfm) := by
  unfold dWithRates; cases successIndex (dct dfm) <;> rfl

/-! Claim theorems. -/

/-- C9: calling either engine twice with the identical table and columns
yields identical results.  The second call receives the table as mutated by
the first (the metric column coerced); both engines are pure functions of
that table, and the coercion is idempotent, so the rerun reproduces the
first result and the same mutated table. -/
theorem c9_determinism (os : DStats) (cs : CStats) (t : Table) :
    perform_discrete_ab_test os (perform_discrete_ab_test os t).2
        = perform_discrete_ab_test os t
    ∧ perform_continuous_ab_test cs (coerceMetric t)
        = perform_continuous_ab_test cs t := by
  constructor
  · simp [perform_discrete_ab_test, coerceMetric_idem]
  · simp [perform_continuous_ab_test, coerceMetric_idem]

unseal Rat.add Rat.mul Rat.sub Rat.inv Rat.ofScientific in
/-- C6 counterexample: the engines mutate the callers table.  On a table
whose metric column holds a non coercible value, the table after the
discrete call differs from the input (the value was overwritten by NaN). -/
theorem c6_counterexample :
    (perform_discrete_ab_test os0 tMixed).2 ≠ tMixed := by decide

/-- C6 amended: each engine overwrites the metric column of the callers
table with its numeric coercion; the variant column is untouched, and a
table whose metric cells are already coercion fixed points (numbers or NaN)
is returned unchanged. -/
theorem c6_amended (os : DStats) (cs : CStats) (t : Table) :
    (perform_discrete_ab_test os t).2 = coerceMetric t
    ∧ Except.map (fun p => p.2) (perform_continuous_ab_test cs t)
        = Except.map (fun _ => coerceMetric t) (perform_continuous_ab_test cs t)
    ∧ ((∀ r ∈ t, toNumeric r.2 = r.2) → (perform_discrete_ab_test os t).2 = t) := by
  refine ⟨rfl, ?_, ?_⟩
  · unfold perform_continuous_ab_test
    cases continuousResultOf cs (coerceMetric t) <;> rfl
  · intro h
    show coerceMetric t = t
    unfold coerceMetric
    conv_rhs => rw [← List.map_id t]
    refine List.map_congr_left (fun r hr => ?_)
    simp [h r hr]

/-- C6 amended witness at a table of numeric metric cells. -/
theorem c6_amended_witness : (perform_discrete_ab_test os0 tPearson).2 = tPearson :=
  (c6_amended os0 cs0 tPearson).2.2 (by decide)

unseal Rat.add Rat.mul Rat.sub Rat.inv Rat.ofScientific in
/-- C1 counterexample: a table whose variant column has three distinct
values after cleaning on which the discrete engine returns a successful
chi squared result with a populated p value, instead of a status error
result (the discrete engine never validates the variant count). -/
theorem c1_counterexample :
    (uniques ((cleanedOf (coerceMetric tThreeVariants)).map Prod.fst)).length = 3
    ∧ (perform_discrete_ab_test os0 tThreeVariants).1.status = Status.success
    ∧ (perform_discrete_ab_test os0 tThreeVariants).1.p_value ≠ none := by decide

/-- C1 amended: for every input table whose variant column has a number of
distinct values different from 2 after cleaning, the continuous engine
returns a result with status error and no statistic or p value; the
discrete engine performs no variant count validation (see the
counterexample). -/
theorem c1_amended (cs : CStats) (t : Table)
    (h : (cvariants (coerceMetric t)).length ≠ 2) :
    (contOk cs t).map ContinuousResult.status = some Status.error
    ∧ (contOk cs t).map ContinuousResult.statistic = some none
    ∧ (contOk cs t).map ContinuousResult.p_value = some none
    ∧ (contOk cs t).map ContinuousResult.test_method = some none := by
  have key : ∃ m, perform_continuous_ab_test cs t =
      .ok ({ initC with status := .error, error_message := some m }, coerceMetric t) := by
    unfold perform_continuous_ab_test continuousResultOf
    by_cases hn : (uniques ((cleanedOf (coerceMetric t)).map Prod.snd)).length < 2
    · rw [if_pos hn]; exact ⟨_, rfl⟩
    · rw [if_neg hn, if_pos h]; exact ⟨_, rfl⟩
  obtain ⟨m, hres⟩ := key
  simp [contOk, hres, initC]

/-- C1 amended witness at the three variant table. -/
theorem c1_amended_witness :
    (contOk cs0 tThreeVariants).map ContinuousResult.status = some Status.error
    ∧ (contOk cs0 tThreeVariants).map ContinuousResult.statistic = some none
    ∧ (contOk cs0 tThreeVariants).map ContinuousResult.p_value = some none
    ∧ (contOk cs0 tThreeVariants).map ContinuousResult.test_method = some none :=
  c1_amended cs0 tThreeVariants (by decide)

/-- C4 counterexample: when a statistical routine raises (shapiro on groups
of two values, as scipy does below three), the continuous engine does not
return a status error result: the exception escapes and no result record
is produced at all. -/
theorem c4_counterexample :
    perform_continuous_ab_test csRaise tTiny
        = Except.error "ValueError: data must be at least length 3"
    ∧ contOk csRaise tTiny = none := ⟨rfl, rfl⟩

/-- C4 amended: the continuous engine has no exception handler: when the
first Shapiro Wilk call raises, the exception propagates unchanged to the
caller instead of being converted into a status error result. -/
theorem c4_amended (cs : CStats) (t : Table) (e : String)
    (h1 : ¬ (uniques ((cleanedOf (coerceMetric t)).map Prod.snd)).length < 2)
    (h2 : (cvariants (coerceMetric t)).length = 2)
    (h3 : cs.shapiro (groupA (coerceMetric t)) = .error e) :
    perform_continuous_ab_test cs t = .error e := by
  unfold perform_continuous_ab_test continuousResultOf
  rw [if_neg h1, if_neg (by simp [h2]), h3]
  rfl

unseal Rat.add Rat.mul Rat.sub Rat.inv Rat.ofScientific in
/-- C4 amended witness: the concrete raising oracle on the concrete tiny
table. -/
theorem c4_amended_witness :
    perform_continuous_ab_test csRaise tTiny
        = Except.error "ValueError: data must be at least length 3" :=
  c4_amended csRaise tTiny _ (by decide) (by decide) rfl

/-- C3: the assumption driven test selection of the discrete engine.  If at
most 20 percent of expected cells are below 5 and every expected cell is at
least 1, Pearson chi squared is chosen with statistic, degrees of freedom
and p value populated; otherwise Fisher exact is chosen, and a table that
is not 2x2 is then a terminal error with no statistic. -/
theorem c3_test_selection (os : DStats) (t : Table)
    (h1 : (uniques ((cleanedOf (coerceMetric t)).map Prod.snd)).length ≤ 2)
    (h2 : cleanedOf (coerceMetric t) ≠ []) :
    ((dpct (coerceMetric t) ≤ 20 ∧ ∀ e ∈ (dexp (coerceMetric t)).flatten, 1 ≤ e) →
        (perform_discrete_ab_test os t).1.test_method = some TestMethod.pearsonChi2
        ∧ (perform_discrete_ab_test os t).1.chi2_statistic
            = some (os.chi2Stat (dct (coerceMetric t)))
        ∧ (perform_discrete_ab_test os t).1.dof = some (ddof (coerceMetric t))
        ∧ (perform_discrete_ab_test os t).1.p_value
            = some (os.chi2P (dct (coerceMetric t)))
        ∧ (perform_discrete_ab_test os t).1.status = Status.success)
    ∧ (¬ (dpct (coerceMetric t) ≤ 20 ∧ ∀ e ∈ (dexp (coerceMetric t)).flatten, 1 ≤ e) →
        (perform_discrete_ab_test os t).1.test_method = some TestMethod.fisherExact
        ∧ (¬ ((dct (coerceMetric t)).rowLabels.length = 2
              ∧ (dct (coerceMetric t)).colLabels.length = 2) →
            (perform_discrete_ab_test os t).1.status = Status.error
            ∧ (perform_discrete_ab_test os t).1.p_value = none
            ∧ (perform_discrete_ab_test os t).1.odds = none)) := by
  unfold perform_discrete_ab_test discreteResultOf
  rw [if_neg (Nat.not_lt.mpr h1),
    if_neg (by simp [dct_not_empty (coerceMetric t) h2])]
  split_ifs with hchi h22
  · exact ⟨fun _ => ⟨rfl, rfl, rfl, rfl, dWithRates_status os _⟩,
      fun hn => absurd hchi hn⟩
  · exact ⟨fun hp => absurd hp hchi, fun _ => ⟨rfl, fun h2x => absurd h22 h2x⟩⟩
  · exact ⟨fun hp => absurd hp hchi,
      fun _ => ⟨rfl, fun _ => ⟨rfl, dWithRates_p_value os _, dWithRates_odds os _⟩⟩⟩

unseal Rat.add Rat.mul Rat.sub Rat.inv Rat.ofScientific in
/-- C3 witness: the two variant table with all expected cells equal to 5
takes the chi squared branch. -/
theorem c3_witness :
    (perform_discrete_ab_test os0 tPearson).1.test_method = some TestMethod.pearsonChi2
    ∧ (perform_discrete_ab_test os0 tPearson).1.dof = some (ddof (coerceMetric tPearson))
    ∧ (perform_discrete_ab_test os0 tPearson).1.status = Status.success := by
  have h := (c3_test_selection os0 tPearson (by decide) (by decide)).1 (by decide)
  exact ⟨h.1, h.2.2.1, h.2.2.2.2⟩

/-- Fields of the rates stage when no success column can be determined. -/
lemma dWithRates_none_fields (os : DStats) (dfm : Table)
    (h : successIndex (dct dfm) = none) :
    (dWithRates os dfm).error_message = some "could not determine success column"
    ∧ (dWithRates os dfm).observed_rates_df = none
    ∧ (dWithRates os dfm).raw_conversion_rates = none := by
  unfold dWithRates
  rw [h]
  exact ⟨rfl, rfl, rfl⟩

unseal Rat.add Rat.mul Rat.sub Rat.inv Rat.ofScientific in
/-- C7 counterexample: on a binary metric taking the values 2 and 3 the
success column cannot be inferred, yet the result keeps status success,
records the failure only in error_message, and still carries a p value of
the performed test. -/
theorem c7_counterexample :
    successIndex (dct (coerceMetric tNoSuccessCol)) = none
    ∧ (perform_discrete_ab_test os0 tNoSuccessCol).1.status = Status.success
    ∧ (perform_discrete_ab_test os0 tNoSuccessCol).1.error_message ≠ none
    ∧ (perform_discrete_ab_test os0 tNoSuccessCol).1.p_value ≠ none := by decide

/-- C7 amended: when the success column cannot be inferred the discrete
engine records the message in error_message but leaves the status at
success and still runs the selected statistical test (here the chi squared
branch); the rates fields stay unset. -/
theorem c7_amended (os : DStats) (t : Table)
    (h1 : (uniques ((cleanedOf (coerceMetric t)).map Prod.snd)).length ≤ 2)
    (h2 : cleanedOf (coerceMetric t) ≠ [])
    (h3 : successIndex (dct (coerceMetric t)) = none)
    (h4 : dpct (coerceMetric t) ≤ 20 ∧ ∀ e ∈ (dexp (coerceMetric t)).flatten, 1 ≤ e) :
    (perform_discrete_ab_test os t).1.status = Status.success
    ∧ (perform_discrete_ab_test os t).1.error_message
        = some "could not determine success column"
    ∧ (perform_discrete_ab_test os t).1.p_value = some (os.chi2P (dct (coerceMetric t)))
    ∧ (perform_discrete_ab_test os t).1.observed_rates_df = none
    ∧ (perform_discrete_ab_test os t).1.raw_conversion_rates = none := by
  unfold perform_discrete_ab_test discreteResultOf
  rw [if_neg (Nat.not_lt.mpr h1),
    if_neg (by simp [dct_not_empty (coerceMetric t) h2]), if_pos h4]
  exact ⟨dWithRates_status os _, (dWithRates_none_fields os _ h3).1, rfl,
    (dWithRates_none_fields os _ h3).2.1, (dWithRates_none_fields os _ h3).2.2⟩

unseal Rat.add Rat.mul Rat.sub Rat.inv Rat.ofScientific in
/-- C7 amended witness at the concrete table with outcome values 2 and 3. -/
theorem c7_amended_witness :
    (perform_discrete_ab_test os0 tNoSuccessCol).1.status = Status.success
    ∧ (perform_discrete_ab_test os0 tNoSuccessCol).1.error_message
        = some "could not determine success column"
    ∧ (perform_discrete_ab_test os0 tNoSuccessCol).1.p_value
        = some (os0.chi2P (dct (coerceMetric tNoSuccessCol)))
    ∧ (perform_discrete_ab_test os0 tNoSuccessCol).1.observed_rates_df = none
    ∧ (perform_discrete_ab_test os0 tNoSuccessCol).1.raw_conversion_rates = none :=
  c7_amended os0 tNoSuccessCol (by decide) (by decide) (by decide) (by decide)

/-- C10: the chi squared specific fields and the Fisher specific field are
mutually exclusive in every discrete result: chi2_statistic and dof are
populated only in the Pearson branch with the odds ratio unset, the odds
ratio only in the Fisher branch on a 2x2 table with chi2_statistic and dof
unset, and never both in one result. -/
theorem c10_field_exclusivity (os : DStats) (t : Table) :
    ((perform_discrete_ab_test os t).1.chi2_statistic ≠ none
        ∨ (perform_discrete_ab_test os t).1.dof ≠ none →
      (perform_discrete_ab_test os t).1.test_method = some TestMethod.pearsonChi2
      ∧ (perform_discrete_ab_test os t).1.odds = none)
    ∧ ((perform_discrete_ab_test os t).1.odds ≠ none →
      (perform_discrete_ab_test os t).1.test_method = some TestMethod.fisherExact
      ∧ (perform_discrete_ab_test os t).1.chi2_statistic = none
      ∧ (perform_discrete_ab_test os t).1.dof = none
      ∧ (dct (coerceMetric t)).rowLabels.length = 2
      ∧ (dct (coerceMetric t)).colLabels.length = 2)
    ∧ ¬ ((perform_discrete_ab_test os t).1.chi2_statistic ≠ none
        ∧ (perform_discrete_ab_test os t).1.odds ≠ none) := by
  unfold perform_discrete_ab_test discreteResultOf
  split_ifs with h1 h2 hchi h22
  · exact ⟨fun h => by rcases h with h | h <;> exact absurd rfl h,
      fun h => absurd rfl h, fun h => absurd rfl h.2⟩
  · exact ⟨fun h => by rcases h with h | h <;> exact absurd rfl h,
      fun h => absurd rfl h, fun h => absurd rfl h.2⟩
  · exact ⟨fun _ => ⟨rfl, dWithRates_odds os _⟩,
      fun h => absurd (dWithRates_odds os _) h,
      fun h => absurd (dWithRates_odds os _) h.2⟩
  · exact ⟨fun h => by
        rcases h with h | h
        · exact absurd (dWithRates_chi2_statistic os _) h
        · exact absurd (dWithRates_dof os _) h,
      fun _ => ⟨rfl, dWithRates_chi2_statistic os _, dWithRates_dof os _,
        h22.1, h22.2⟩,
      fun h => absurd (dWithRates_chi2_statistic os _) h.1⟩
  · exact ⟨fun h => by
        rcases h with h | h
        · exact absurd (dWithRates_chi2_statistic os _) h
        · exact absurd (dWithRates_dof os _) h,
      fun h => absurd (dWithRates_odds os _) h,
      fun h => absurd (dWithRates_chi2_statistic os _) h.1⟩

unseal Rat.add Rat.mul Rat.sub Rat.inv Rat.ofScientific in
/-- C10 witness: the small count 2x2 table takes the Fisher branch with a
populated odds ratio, so the exclusivity theorem yields the Fisher side. -/
theorem c10_witness :
    (perform_discrete_ab_test os0 tFisherOk).1.test_method = some TestMethod.fisherExact
    ∧ (perform_discrete_ab_test os0 tFisherOk).1.chi2_statistic = none
    ∧ (perform_discrete_ab_test os0 tFisherOk).1.dof = none
    ∧ (dct (coerceMetric tFisherOk)).rowLabels.length = 2
    ∧ (dct (coerceMetric tFisherOk)).colLabels.length = 2 :=
  (c10_field_exclusivity os0 tFisherOk).2.1 (by decide)

unseal Rat.add Rat.mul Rat.sub Rat.inv Rat.ofScientific in
/-- C5 counterexample: the Fisher non 2x2 error result is returned with
status error but with the test method and the intermediate tables already
populated, contradicting the claim that error results carry nothing beyond
the message. -/
theorem c5_counterexample :
    (perform_discrete_ab_test os0 tFisherBad).1.status = Status.error
    ∧ (perform_discrete_ab_test os0 tFisherBad).1.test_method ≠ none
    ∧ (perform_discrete_ab_test os0 tFisherBad).1.contingency_table ≠ none
    ∧ (perform_discrete_ab_test os0 tFisherBad).1.expected_frequencies ≠ none := by
  decide

/-- C5 amended: in every error result the statistic like fields (p value,
chi squared statistic, degrees of freedom, odds ratio, conclusion,
interpretation) are unset, and every error result of the continuous engine
carries nothing at all beyond the message; but the discrete Fisher non 2x2
error result does carry the already computed test method and tables (see
the counterexample). -/
theorem c5_amended (os : DStats) (cs : CStats) (t : Table) :
    ((perform_discrete_ab_test os t).1.status = Status.error →
        (perform_discrete_ab_test os t).1.p_value = none
        ∧ (perform_discrete_ab_test os t).1.chi2_statistic = none
        ∧ (perform_discrete_ab_test os t).1.dof = none
        ∧ (perform_discrete_ab_test os t).1.odds = none
        ∧ (perform_discrete_ab_test os t).1.conclusion = none
        ∧ (perform_discrete_ab_test os t).1.interpretation = none)
    ∧ (∀ r, continuousResultOf cs (coerceMetric t) = .ok r →
        r.status = Status.error →
        r.test_method = none ∧ r.statistic = none ∧ r.p_value = none
        ∧ r.conclusion = none ∧ r.group_stats = none ∧ r.shapiro_a_p = none
        ∧ r.levene_p = none ∧ r.is_large_sample = false) := by
  constructor
  · unfold perform_discrete_ab_test discreteResultOf
    split_ifs with h1 h2 hchi h22
    · exact fun _ => ⟨rfl, rfl, rfl, rfl, rfl, rfl⟩
    · exact fun _ => ⟨rfl, rfl, rfl, rfl, rfl, rfl⟩
    · intro hst
      have hst2 : (dWithRates os (coerceMetric t)).status = Status.error := hst
      rw [dWithRates_status] at hst2
      exact absurd hst2 (by simp)
    · intro hst
      have hst2 : (dWithRates os (coerceMetric t)).status = Status.error := hst
      rw [dWithRates_status] at hst2
      exact absurd hst2 (by simp)
    · exact fun _ => ⟨dWithRates_p_value os _, dWithRates_chi2_statistic os _,
        dWithRates_dof os _, dWithRates_odds os _, dWithRates_conclusion os _,
        dWithRates_interpretation os _⟩
  · intro r hok herr
    simp only [continuousResultOf] at hok
    split at hok
    · injection hok with h
      subst h
      exact ⟨rfl, rfl, rfl, rfl, rfl, rfl, rfl, rfl⟩
    · split at hok
      · injection hok with h
        subst h
        exact ⟨rfl, rfl, rfl, rfl, rfl, rfl, rfl, rfl⟩
      · split at hok
        · exact absurd hok (by simp)
        · split at hok
          · exact absurd hok (by simp)
          · split at hok
            · exact absurd hok (by simp)
            · split at hok
              · split at hok
                · exact absurd hok (by simp)
                · injection hok with h
                  subst h
                  exact absurd (show Status.success = Status.error from herr) (by simp)
              · split at hok
                · split at hok
                  · exact absurd hok (by simp)
                  · injection hok with h
                    subst h
                    exact absurd (show Status.success = Status.error from herr) (by simp)
                · split at hok
                  · exact absurd hok (by simp)
                  · injection hok with h
                    subst h
                    exact absurd (show Status.success = Status.error from herr) (by simp)

unseal Rat.add Rat.mul Rat.sub Rat.inv Rat.ofScientific in
/-- C5 amended witness: the statistic like fields of the concrete Fisher
non 2x2 error result are all unset. -/
theorem c5_amended_witness :
    (perform_discrete_ab_test os0 tFisherBad).1.p_value = none
    ∧ (perform_discrete_ab_test os0 tFisherBad).1.chi2_statistic = none
    ∧ (perform_discrete_ab_test os0 tFisherBad).1.dof = none
    ∧ (perform_discrete_ab_test os0 tFisherBad).1.odds = none
    ∧ (perform_discrete_ab_test os0 tFisherBad).1.conclusion = none
    ∧ (perform_discrete_ab_test os0 tFisherBad).1.interpretation = none :=
  (c5_amended os0 cs0 tFisherBad).1 (by decide)

/-- Lower and upper interval bounds of one rates row bracket the rate,
provided the square root routine is nonnegative on nonnegative arguments
(as np.sqrt is) and the success count is at most the trial count. -/
lemma ratesRow_bounds (sq : ℚ → ℚ) (hsq : ∀ x, 0 ≤ x → 0 ≤ sq x) (v : String)
    (count n : ℕ) (hcn : count ≤ n) :
    (ratesRow sq v count n).2.2.1 ≤ (ratesRow sq v count n).2.1
    ∧ (ratesRow sq v count n).2.1 ≤ (ratesRow sq v count n).2.2.2 := by
  unfold ratesRow proportion_confint
  dsimp only
  have hp0 : (0 : ℚ) ≤ (count : ℚ) / (n : ℚ) := by positivity
  have hp1 : (count : ℚ) / (n : ℚ) ≤ 1 := by
    rcases Nat.eq_zero_or_pos n with hn | hn
    · simp [hn]
    · rw [div_le_one (by exact_mod_cast hn)]
      exact_mod_cast hcn
  have harg : 0 ≤ (count : ℚ) / (n : ℚ) * (1 - (count : ℚ) / (n : ℚ)) / (n : ℚ) := by
    apply div_nonneg
    · exact mul_nonneg hp0 (by linarith)
    · positivity
  have hs := hsq _ harg
  have hz : (0 : ℚ) ≤ z975 := by norm_num [z975]
  constructor <;> nlinarith [mul_nonneg hz hs]

/-- The observed rates field of a discrete result is either unset or the
rates table of the determined success column. -/
lemma observed_rates_cases (os : DStats) (dfm : Table) :
    (discreteResultOf os dfm).observed_rates_df = none
    ∨ ∃ s, (discreteResultOf os dfm).observed_rates_df
        = some (ratesTable os.sqrt (dct dfm) s) := by
  unfold discreteResultOf
  split_ifs with h1 h2 hchi h22
  · exact Or.inl rfl
  · exact Or.inl rfl
  all_goals
    show (dWithRates os dfm).observed_rates_df = none
      ∨ ∃ s, (dWithRates os dfm).observed_rates_df
          = some (ratesTable os.sqrt (dct dfm) s)
  all_goals
    unfold dWithRates
  all_goals
    rcases hsi : successIndex (dct dfm) with - | s
  all_goals
    first
      | exact Or.inl rfl
      | exact Or.inr ⟨s, rfl⟩

/-- C8: in every successful discrete result, each observed rates row has
CI_Lower at most the conversion rate and the conversion rate at most
CI_Upper, the bounds being the normal approximation interval scaled to
percent.  The square root oracle is assumed nonnegative on nonnegative
arguments, which is the behaviour of np.sqrt on the nonnegative
variance expression. -/
theorem c8_ci_brackets_rate (os : DStats) (t : Table)
    (hsq : ∀ x, 0 ≤ x → 0 ≤ os.sqrt x)
    (_hst : (perform_discrete_ab_test os t).1.status = Status.success)
    (i : ℕ)
    (hi : i < (((perform_discrete_ab_test os t).1.observed_rates_df).getD []).length) :
    ((((perform_discrete_ab_test os t).1.observed_rates_df).getD []).get ⟨i, hi⟩).2.2.1
        ≤ ((((perform_discrete_ab_test os t).1.observed_rates_df).getD []).get ⟨i, hi⟩).2.1
    ∧ ((((perform_discrete_ab_test os t).1.observed_rates_df).getD []).get ⟨i, hi⟩).2.1
        ≤ ((((perform_discrete_ab_test os t).1.observed_rates_df).getD []).get ⟨i, hi⟩).2.2.2 := by
  rcases observed_rates_cases os (coerceMetric t) with hn | ⟨s, hs⟩
  · exfalso
    have hi2 : i < ((none : Option (List (String × ℚ × ℚ × ℚ))).getD []).length := by
      rw [← hn]
      exact hi
    simp at hi2
  · have hl : ((perform_discrete_ab_test os t).1.observed_rates_df).getD []
        = ratesTable os.sqrt (dct (coerceMetric t)) s := by
      rw [show (perform_discrete_ab_test os t).1.observed_rates_df
            = some (ratesTable os.sqrt (dct (coerceMetric t)) s) from hs]
      rfl
    have hmem : ∀ row ∈ ratesTable os.sqrt (dct (coerceMetric t)) s,
        row.2.2.1 ≤ row.2.1 ∧ row.2.1 ≤ row.2.2.2 := by
      intro row hrow
      obtain ⟨p, -, rfl⟩ := List.mem_map.mp hrow
      exact ratesRow_bounds _ hsq _ _ _ (getD_le_sum _ _)
    apply hmem
    rw [← hl]
    exact List.get_mem _ _ _

unseal Rat.add Rat.mul Rat.sub Rat.inv Rat.ofScientific in
/-- C8 witness: the first rates row of the concrete successful chi squared
run has its rate bracketed by the interval bounds. -/
theorem c8_witness :
    ((((perform_discrete_ab_test os0 tPearson).1.observed_rates_df).getD []).get
        ⟨0, by decide⟩).2.2.1
      ≤ ((((perform_discrete_ab_test os0 tPearson).1.observed_rates_df).getD []).get
        ⟨0, by decide⟩).2.1
    ∧ ((((perform_discrete_ab_test os0 tPearson).1.observed_rates_df).getD []).get
        ⟨0, by decide⟩).2.1
      ≤ ((((perform_discrete_ab_test os0 tPearson).1.observed_rates_df).getD []).get
        ⟨0, by decide⟩).2.2.2 :=
  c8_ci_brackets_rate os0 tPearson (fun x hx => le_refl 0) (by decide) 0 (by decide)

/-- The boolean branch condition of the continuous test selection, as the
corresponding proposition. -/
lemma branch_cond_iff (P Q R S : Prop)
    [Decidable P] [Decidable Q] [Decidable R] [Decidable S] :
    ((!(decide P && decide Q) && (!(decide R) || !(decide S))) = true)
      ↔ (¬ (P ∧ Q) ∧ (¬ R ∨ ¬ S)) := by
  by_cases hP : P <;> by_cases hQ : Q <;> by_cases hR : R <;> by_cases hS : S <;>
    simp [hP, hQ, hR, hS]

/-- The chosen continuous method as a function of the diagnostics, when the
validations pass and the three diagnostic routines return normally. -/
lemma contMethod_eq (cs : CStats) (t : Table) (sa sb lv : ℚ × ℚ)
    (h1 : ¬ (uniques ((cleanedOf (coerceMetric t)).map Prod.snd)).length < 2)
    (h2 : (cvariants (coerceMetric t)).length = 2)
    (h3 : cs.shapiro (groupA (coerceMetric t)) = .ok sa)
    (h4 : cs.shapiro (groupB (coerceMetric t)) = .ok sb)
    (h5 : cs.levene (groupA (coerceMetric t)) (groupB (coerceMetric t)) = .ok lv) :
    contMethod cs t =
      if !(decide (30 ≤ (groupA (coerceMetric t)).length)
            && decide (30 ≤ (groupB (coerceMetric t)).length))
          && (!(decide (5 / 100 < sa.2)) || !(decide (5 / 100 < sb.2))) then
        match cs.mannwhitneyu (groupA (coerceMetric t)) (groupB (coerceMetric t)) with
        | .ok _ => some TestMethod.mannWhitneyU
        | .error _ => none
      else if decide (5 / 100 < lv.2) then
        match cs.ttest_ind (groupA (coerceMetric t)) (groupB (coerceMetric t)) true with
        | .ok _ => some TestMethod.studentT
        | .error _ => none
      else
        match cs.ttest_ind (groupA (coerceMetric t)) (groupB (coerceMetric t)) false with
        | .ok _ => some TestMethod.welchT
        | .error _ => none := by
  unfold contMethod perform_continuous_ab_test continuousResultOf
  rw [if_neg h1, if_neg (by simp [h2]), h3, h4, h5]
  dsimp only
  split_ifs with hb hv
  · rcases hm : cs.mannwhitneyu (groupA (coerceMetric t)) (groupB (coerceMetric t))
      with e | u <;> rfl
  · rcases hm : cs.ttest_ind (groupA (coerceMetric t)) (groupB (coerceMetric t)) true
      with e | u <;> rfl
  · rcases hm : cs.ttest_ind (groupA (coerceMetric t)) (groupB (coerceMetric t)) false
      with e | u <;> rfl

/-- C2: the continuous test selection.  With the group sizes of the two
variants and the Shapiro Wilk and Levene p values recorded by the
diagnostics: a sample that is not large (some group below 30) with at
least one Shapiro p at most 0.05 gets the Mann Whitney U test; otherwise
Levene p above 0.05 gets the Student t test and at most 0.05 the Welch t
test; and with both groups at size 30 or more the method is never Mann
Whitney, whatever the Shapiro p values. -/
theorem c2_method_selection (cs : CStats) (t : Table) (sa sb lv : ℚ × ℚ)
    (h1 : ¬ (uniques ((cleanedOf (coerceMetric t)).map Prod.snd)).length < 2)
    (h2 : (cvariants (coerceMetric t)).length = 2)
    (h3 : cs.shapiro (groupA (coerceMetric t)) = .ok sa)
    (h4 : cs.shapiro (groupB (coerceMetric t)) = .ok sb)
    (h5 : cs.levene (groupA (coerceMetric t)) (groupB (coerceMetric t)) = .ok lv) :
    ((¬ (30 ≤ (groupA (coerceMetric t)).length ∧ 30 ≤ (groupB (coerceMetric t)).length)
        ∧ (sa.2 ≤ 5 / 100 ∨ sb.2 ≤ 5 / 100)) →
      ∀ u, cs.mannwhitneyu (groupA (coerceMetric t)) (groupB (coerceMetric t)) = .ok u →
        contMethod cs t = some TestMethod.mannWhitneyU)
    ∧ (((30 ≤ (groupA (coerceMetric t)).length ∧ 30 ≤ (groupB (coerceMetric t)).length)
        ∨ (5 / 100 < sa.2 ∧ 5 / 100 < sb.2)) →
      (5 / 100 < lv.2 →
        ∀ u, cs.ttest_ind (groupA (coerceMetric t)) (groupB (coerceMetric t)) true = .ok u →
          contMethod cs t = some TestMethod.studentT)
      ∧ (lv.2 ≤ 5 / 100 →
        ∀ u, cs.ttest_ind (groupA (coerceMetric t)) (groupB (coerceMetric t)) false = .ok u →
          contMethod cs t = some TestMethod.welchT))
    ∧ ((30 ≤ (groupA (coerceMetric t)).length ∧ 30 ≤ (groupB (coerceMetric t)).length) →
      contMethod cs t ≠ some TestMethod.mannWhitneyU) := by
  have key := contMethod_eq cs t sa sb lv h1 h2 h3 h4 h5
  refine ⟨?_, ?_, ?_⟩
  · rintro ⟨hnl, hnn⟩ u hu
    have hcond := (branch_cond_iff _ _ _ _).mpr
      ⟨hnl, hnn.imp (fun h => not_lt.mpr h) (fun h => not_lt.mpr h)⟩
    rw [key, if_pos hcond, hu]
  · intro hcond
    have hcf : ¬ ((!(decide (30 ≤ (groupA (coerceMetric t)).length)
          && decide (30 ≤ (groupB (coerceMetric t)).length))
        && (!(decide (5 / 100 < sa.2)) || !(decide (5 / 100 < sb.2)))) = true) := by
      intro hc
      rcases (branch_cond_iff _ _ _ _).mp hc with ⟨hnl, hnn⟩
      rcases hcond with hpq | hrs
      · exact hnl hpq
      · rcases hnn with h | h
        · exact h hrs.1
        · exact h hrs.2
    constructor
    · intro hlv u hu
      rw [key, if_neg hcf, if_pos (by simpa using hlv), hu]
    · intro hlv u hu
      rw [key, if_neg hcf, if_neg (by simpa using not_lt.mpr hlv), hu]
  · intro hpq
    have hcf : ¬ ((!(decide (30 ≤ (groupA (coerceMetric t)).length)
          && decide (30 ≤ (groupB (coerceMetric t)).length))
        && (!(decide (5 / 100 < sa.2)) || !(decide (5 / 100 < sb.2)))) = true) := by
      intro hc
      exact ((branch_cond_iff _ _ _ _).mp hc).1 hpq
    rw [key, if_neg hcf]
    split_ifs with hlv
    · rcases hm : cs.ttest_ind (groupA (coerceMetric t)) (groupB (coerceMetric t)) true
        with e | u <;> simp
    · rcases hm : cs.ttest_ind (groupA (coerceMetric t)) (groupB (coerceMetric t)) false
        with e | u <;> simp

unseal Rat.add Rat.mul Rat.sub Rat.inv Rat.ofScientific in
/-- C2 witness: two groups of three values with Shapiro p values of 1/100
take the Mann Whitney branch. -/
theorem c2_witness : contMethod cs0 tSmall = some TestMethod.mannWhitneyU := by
  have h := (c2_method_selection cs0 tSmall (1, 1 / 100) (1, 1 / 100) (1, 1 / 2)
      (by decide) (by decide) rfl rfl rfl).1
  exact h ⟨by decide, by decide⟩ (7, 3 / 100) rfl

end ABTest

